import Mathlib

set_option maxRecDepth 4000

/-!
Verification of the WebSocket handshake and framing core of
`websocket-tinkering` (`src/server/index.js`).

Strings and buffers are shallowly embedded as `List Nat` of byte values
(Node `Buffer`s hold bytes `0..255`; text is its UTF-8 byte sequence).
`crypto.createHash("sha1")` and `Buffer.toString("base64")` are the standard
SHA-1 and base64 algorithms, embedded below; all arithmetic is `Nat` with
explicit `% 2^32` / `% 256` where the 32-bit words and byte stores truncate.
-/

/-! ### SHA-1 (the algorithm behind `crypto.createHash("sha1")`) -/

/-- Left-rotation of a 32-bit word. -/
def rotl (n x : Nat) : Nat := ((x <<< n) ||| (x >>> (32 - n))) % 4294967296

/-- Big-endian bytes of a 32-bit word. -/
def wordBytes (w : Nat) : List Nat :=
  [w / 16777216 % 256, w / 65536 % 256, w / 256 % 256, w % 256]

/-- Big-endian 8-byte encoding of a 64-bit quantity (the SHA-1 bit length,
and also the layout `Buffer.writeBigUInt64BE` produces). -/
def beBytes8 (n : Nat) : List Nat :=
  [n / 72057594037927936 % 256, n / 281474976710656 % 256,
   n / 1099511627776 % 256, n / 4294967296 % 256,
   n / 16777216 % 256, n / 65536 % 256, n / 256 % 256, n % 256]

/-- Big-endian 2-byte encoding (the layout `Buffer.writeUInt16BE` produces). -/
def beBytes2 (n : Nat) : List Nat := [n / 256 % 256, n % 256]

/-- Group a byte list into big-endian 32-bit words. -/
def bytesToWords : List Nat → List Nat
  | a :: b :: c :: d :: rest =>
      (a * 16777216 + b * 65536 + c * 256 + d) :: bytesToWords rest
  | _ => []

/-- Split the padded message into 64-byte blocks; `k` is the block count. -/
def chunksN : Nat → List Nat → List (List Nat)
  | 0, _ => []
  | k + 1, l => l.take 64 :: chunksN k (l.drop 64)

/-- Extend the 16 message-schedule words to 80:
`w[t] = rotl 1 (w[t-3] xor w[t-8] xor w[t-14] xor w[t-16])`. -/
def sha1Extend (w : List Nat) : Nat → List Nat
  | 0 => w
  | k + 1 =>
      let i := w.length
      sha1Extend
        (w ++ [rotl 1 (((w.getD (i - 3) 0 ^^^ w.getD (i - 8) 0) ^^^
            w.getD (i - 14) 0) ^^^ w.getD (i - 16) 0)]) k

/-- The 80 SHA-1 compression rounds; `t` is the round index, `ws` the
remaining schedule words. -/
def sha1Compress (t : Nat) (ws : List Nat) (a b c d e : Nat) :
    Nat × Nat × Nat × Nat × Nat :=
  match ws with
  | [] => (a, b, c, d, e)
  | wt :: rest =>
      let f :=
        if t < 20 then (b &&& c) ||| ((b ^^^ 4294967295) &&& d)
        else if t < 40 then (b ^^^ c) ^^^ d
        else if t < 60 then ((b &&& c) ||| (b &&& d)) ||| (c &&& d)
        else (b ^^^ c) ^^^ d
      let k :=
        if t < 20 then 1518500249
        else if t < 40 then 1859775393
        else if t < 60 then 2400959708
        else 3395469782
      let temp := (rotl 5 a + f + e + k + wt) % 4294967296
      sha1Compress (t + 1) rest temp a (rotl 30 b) c d

/-- Fold the compression function over all 64-byte blocks. -/
def sha1Fold (hs : Nat × Nat × Nat × Nat × Nat) :
    List (List Nat) → Nat × Nat × Nat × Nat × Nat
  | [] => hs
  | blk :: rest =>
      let w := sha1Extend (bytesToWords blk) 64
      let r := sha1Compress 0 w hs.1 hs.2.1 hs.2.2.1 hs.2.2.2.1 hs.2.2.2.2
      sha1Fold
        ((hs.1 + r.1) % 4294967296, (hs.2.1 + r.2.1) % 4294967296,
         (hs.2.2.1 + r.2.2.1) % 4294967296, (hs.2.2.2.1 + r.2.2.2.1) % 4294967296,
         (hs.2.2.2.2 + r.2.2.2.2) % 4294967296) rest

/-- Serialize the five 32-bit state words into the 20-byte digest. -/
def sha1Digest (hs : Nat × Nat × Nat × Nat × Nat) : List Nat :=
  wordBytes hs.1 ++ (wordBytes hs.2.1 ++ (wordBytes hs.2.2.1 ++
    (wordBytes hs.2.2.2.1 ++ wordBytes hs.2.2.2.2)))

/-- SHA-1 of a byte sequence: pad with `0x80`, zeros to 56 mod 64, and the
64-bit big-endian bit length; then compress block by block. -/
def sha1 (msg : List Nat) : List Nat :=
  let len := msg.length
  let zeros := (120 - (len + 1) % 64) % 64
  let padded := msg ++ 128 :: (List.replicate zeros 0 ++ beBytes8 (8 * len))
  let blocks := chunksN (padded.length / 64) padded
  sha1Digest (sha1Fold (1732584193, 4023233417, 2562383102, 271733878, 3285377520) blocks)

/-! ### Base64 (the algorithm behind `Buffer.toString("base64")`) -/

/-- The standard base64 alphabet. -/
def b64Chars : List Char :=
  "ABCDEFGHIJKLMNOPQRSTUVWXYZabcdefghijklmnopqrstuvwxyz0123456789+/".data

/-- Character for a 6-bit group. -/
def b64Char (n : Nat) : Char := b64Chars.getD n 'A'

/-- Standard base64 encoding with `=` padding, 3 input bytes per 4 output
characters. -/
def base64Encode : List Nat → List Char
  | b0 :: b1 :: b2 :: rest =>
      b64Char (b0 / 4) :: b64Char (b0 % 4 * 16 + b1 / 16) ::
      b64Char (b1 % 16 * 4 + b2 / 64) :: b64Char (b2 % 64) :: base64Encode rest
  | [b0, b1] =>
      [b64Char (b0 / 4), b64Char (b0 % 4 * 16 + b1 / 16), b64Char (b1 % 16 * 4), '=']
  | [b0] => [b64Char (b0 / 4), b64Char (b0 % 4 * 16), '=', '=']
  | [] => []

/-! ### The handshake deriver (`generateAcceptKey`, src/server/index.js:12-17) -/

/-- UTF-8 encoding of one character (what `Buffer.from(s, "utf8")` and
`sha1.update(string)` do per code point). -/
def utf8EncodeChar (c : Char) : List Nat :=
  let n := c.toNat
  if n < 128 then [n]
  else if n < 2048 then [192 + n / 64, 128 + n % 64]
  else if n < 65536 then [224 + n / 4096, 128 + n / 64 % 64, 128 + n % 64]
  else [240 + n / 262144, 128 + n / 4096 % 64, 128 + n / 64 % 64, 128 + n % 64]

/-- UTF-8 bytes of a string. -/
def utf8Bytes (s : String) : List Nat := (s.data.map utf8EncodeChar).flatten

/-- The protocol magic GUID constant (src/server/index.js:15). -/
def magicGUID : String := "258EAFA5-E914-47DA-95CA-C5AB0DC85B11"

/-- The function `generateAcceptKey` (src/server/index.js:12-17): SHA-1 of the key
concatenated with the magic GUID, base64-encoded. -/
def generateAcceptKey (secWebSocketKey : String) : String :=
  String.mk (base64Encode (sha1 (utf8Bytes (secWebSocketKey ++ magicGUID))))

/-- Validity of a base64 output character: a symbol of the alphabet, or the
`=` padding character. -/
def isB64Char (c : Char) : Bool := b64Chars.contains c || c == '='

/-- Whether every character of a string is a base64 alphabet symbol or the
`=` padding. -/
def isValidB64 (s : String) : Bool := s.data.all isB64Char

/-- The spec's `deriveAcceptToken` as worded in §4.1: concatenate the key with
the fixed magic GUID, SHA-1 the UTF-8 bytes, base64-encode the 20-byte
digest. Stated separately from `generateAcceptKey` so the source function can
be compared against the spec's algorithm. -/
def deriveAcceptToken (key : String) : String :=
  String.mk (base64Encode (sha1 (utf8Bytes
    (key ++ "258EAFA5-E914-47DA-95CA-C5AB0DC85B11"))))

/-! ### The upgrade handler's key handling (src/server/index.js:37-38)

`req.headers["sec-websocket-key"]` is `undefined` when the header is absent;
JavaScript string concatenation then coerces `undefined` to the literal
string `"undefined"`, so `generateAcceptKey(undefined)` silently hashes
`"undefined" + magicGUID`. The handler has no error path. -/

/-- Error taxonomy the spec demands of the handshake (§7). -/
inductive HandshakeError
  | malformedHeader
deriving DecidableEq

/-- The upgrade handler's accept-token derivation (src/server/index.js:37-38),
with the header modelled as `Option String` (absent ↦ `none`). The result
type is `Except` so that the spec's demanded `MalformedHeaderError` is
expressible; the code itself never takes the error branch. -/
def upgradeAccept (key : Option String) : Except HandshakeError String :=
  Except.ok (generateAcceptKey
    (match key with
     | some s => s
     | none => "undefined"))

/-! ### Frame decoder (`parseFrame`, src/server/index.js:70-121) -/

/-- The masking loop (src/server/index.js:110-118 and 164-166):
`payloadData[i] ^= maskingKey[i % 4]`, starting at index `i`. A `Buffer`
store keeps the low 8 bits, hence the `% 256`. XOR with an out-of-range
index yields the byte unchanged in JS (`undefined` coerces to 0), matching
`getD _ 0`. -/
def xorMask (mask : List Nat) : Nat → List Nat → List Nat
  | _, [] => []
  | i, p :: rest => (p ^^^ mask.getD (i % 4) 0) % 256 :: xorMask mask (i + 1) rest

/-- The function `parseFrame` (src/server/index.js:70-121), returning both the decoded
payload bytes (`payloadData.toString()`, as UTF-8 bytes) and the caller's
buffer as it stands after the call: `buffer.slice` returns a *view* sharing
the caller's memory, so the unmasking loop overwrites the payload region of
the caller's buffer in place. -/
def parseFrameFull (buffer : List Nat) : List Nat × List Nat :=
  let secondByte := buffer.getD 1 0
  let isMasked := secondByte &&& 128 == 128
  let payloadLength := secondByte &&& 127
  let dataStart := if payloadLength == 126 then 2 + 2
    else if payloadLength == 127 then 2 + 8 else 2
  let maskingKey := if isMasked then (buffer.drop dataStart).take 4 else []
  let payloadStart := dataStart + if isMasked then 4 else 0
  let payloadData := buffer.drop payloadStart
  let result := if isMasked then xorMask maskingKey 0 payloadData else payloadData
  (result, if isMasked then buffer.take payloadStart ++ result else buffer)

/-- The value `parseFrame` returns (the decoded payload bytes). -/
def parseFrame (buffer : List Nat) : List Nat := (parseFrameFull buffer).1

/-- Error taxonomy the spec demands of the decoder (§7). -/
inductive FrameError
  | truncatedFrame
deriving DecidableEq

/-- The result of `parseFrame` seen at the type the spec demands (§7,
`TruncatedFrameError`): the source function has no `throw` for any input
(out-of-range `Buffer` reads yield `undefined`, never an exception), so
every call produces `Except.ok`. -/
def decodeFrameE (buffer : List Nat) : Except FrameError (List Nat) :=
  Except.ok (parseFrame buffer)

/-! ### Frame encoder (`sendMessage`, src/server/index.js:123-179) -/

/-- The frame header `sendMessage` builds (src/server/index.js:136-151):
byte 0 is `0x81`, byte 1 is `maskingFlag | indicator`, followed by the
16-bit (`writeUInt16BE`) or 64-bit (`writeBigUInt64BE`) big-endian extended
length when the payload needs it. -/
def frameHeader (maskingFlag n : Nat) : List Nat :=
  if n < 126 then [129, maskingFlag ||| n]
  else if n < 65536 then 129 :: (maskingFlag ||| 126) :: beBytes2 n
  else 129 :: (maskingFlag ||| 127) :: beBytes8 n

/-- The frame `sendMessage` writes to the socket (src/server/index.js:123-179),
with the role and the 4-byte random mask (`Math.random`-generated, lines
155-158) as parameters: header, then — in the client branch — the mask key
followed by the XOR-masked payload, else the payload verbatim. -/
def sendMessageFrame (isClient : Bool) (maskKey payload : List Nat) : List Nat :=
  frameHeader (if isClient then 128 else 0) payload.length ++
    (if isClient then maskKey ++ xorMask maskKey 0 payload else payload)

/-- The function `sendMessage` as the code actually runs it: `const isClient = false`
(src/server/index.js:129) is hardcoded, so the frame is never masked and no
mask key exists. -/
def sendMessage (payload : List Nat) : List Nat := sendMessageFrame false [] payload

/-- Header length per length class (2, 4 or 10 bytes), as allocated at
src/server/index.js:137-147. -/
def headerLen (n : Nat) : Nat := if n < 126 then 2 else if n < 65536 then 4 else 10

/-! ### Spec-side decode (for comparison with `parseFrame`) -/

/-- The 7-bit payload-length indicator of a frame buffer. -/
def indicatorOf (b : List Nat) : Nat := b.getD 1 0 &&& 127

/-- The MASK flag of a frame buffer. -/
def maskedOf (b : List Nat) : Bool := b.getD 1 0 &&& 128 == 128

/-- The payload length a frame buffer declares (spec §4.2 step 2): the 7-bit
indicator, or the 2- resp. 8-byte big-endian extended field for indicator
126 resp. 127. -/
def declaredLen (b : List Nat) : Nat :=
  if indicatorOf b == 126 then 256 * b.getD 2 0 + b.getD 3 0
  else if indicatorOf b == 127 then
    72057594037927936 * b.getD 2 0 + 281474976710656 * b.getD 3 0 +
    1099511627776 * b.getD 4 0 + 4294967296 * b.getD 5 0 +
    16777216 * b.getD 6 0 + 65536 * b.getD 7 0 + 256 * b.getD 8 0 + b.getD 9 0
  else indicatorOf b

/-- Offset of the first payload byte (after extended length and mask key). -/
def payloadStartOf (b : List Nat) : Nat :=
  (if indicatorOf b == 126 then 2 + 2 else if indicatorOf b == 127 then 2 + 8 else 2) +
    if maskedOf b then 4 else 0

/-- A buffer holding exactly one complete frame: header plus exactly the
declared number of payload bytes, nothing more. -/
def exactFrame (b : List Nat) : Prop :=
  b.length = payloadStartOf b + declaredLen b

instance (b : List Nat) : Decidable (exactFrame b) := by
  unfold exactFrame; infer_instance

/-- Decoding as the spec words it (§4.2 steps 5-6): extract *the computed
payload length* many bytes at the payload offset, then unmask if the MASK
flag is set. Stated separately from `parseFrame` (which takes every byte to
the end of the buffer) so the two can be compared. -/
def decodeFrameSpec (b : List Nat) : List Nat :=
  let payload := (b.drop (payloadStartOf b)).take (declaredLen b)
  if maskedOf b then
    xorMask ((b.drop (payloadStartOf b - 4)).take 4) 0 payload
  else payload

/-! ### Helper lemmas: bytes, masking, headers -/

/-- The byte-level facts the header fields rely on, for any 7-bit value. -/
theorem byteFacts : ∀ n, n < 128 →
    n &&& 127 = n ∧ n &&& 128 = 0 ∧ (128 ||| n) &&& 127 = n ∧ (128 ||| n) &&& 128 = 128 := by
  decide

theorem xor_byte_cancel {p k : Nat} (hp : p < 256) (hk : k < 256) :
    ((p ^^^ k) % 256 ^^^ k) % 256 = p := by
  have hx : p ^^^ k < 256 := Nat.xor_lt_two_pow (n := 8) hp hk
  rw [Nat.mod_eq_of_lt hx, Nat.xor_assoc, Nat.xor_self, Nat.xor_zero,
    Nat.mod_eq_of_lt hp]

theorem getD_lt_256 {l : List Nat} (h : ∀ b ∈ l, b < 256) (i : Nat) :
    l.getD i 0 < 256 := by
  rcases hx : l[i]? with _ | v
  · simp [List.getD_eq_getElem?_getD, hx]
  · simpa [List.getD_eq_getElem?_getD, hx] using h v (List.getElem?_mem hx)

theorem xorMask_length (mask : List Nat) : ∀ i l, (xorMask mask i l).length = l.length
  | _, [] => rfl
  | i, _ :: rest => by simp [xorMask, xorMask_length mask (i + 1) rest]

theorem xorMask_involutive {mask : List Nat} (hm : ∀ b ∈ mask, b < 256) :
    ∀ i l, (∀ b ∈ l, b < 256) → xorMask mask i (xorMask mask i l) = l := by
  intro i l
  induction l generalizing i with
  | nil => intro _; rfl
  | cons p rest ih =>
      intro hl
      have hp : p < 256 := hl p (List.mem_cons_self p rest)
      have hk : mask.getD (i % 4) 0 < 256 := getD_lt_256 hm (i % 4)
      simp only [xorMask, xor_byte_cancel hp hk, List.cons.injEq, true_and]
      exact ih (i + 1) (fun b hb => hl b (List.mem_cons_of_mem p hb))

theorem frameHeader_length (flag n : Nat) :
    (frameHeader flag n).length = headerLen n := by
  unfold frameHeader headerLen beBytes2 beBytes8
  split_ifs <;> rfl

theorem frameHeader_getD1 (flag n : Nat) (t : List Nat) :
    (frameHeader flag n ++ t).getD 1 0 =
      flag ||| (if n < 126 then n else if n < 65536 then 126 else 127) := by
  unfold frameHeader beBytes2 beBytes8
  split_ifs <;> simp

theorem frameHeader_drop (flag n : Nat) (t : List Nat) :
    (frameHeader flag n ++ t).drop (headerLen n) = t := by
  unfold frameHeader headerLen beBytes2 beBytes8
  split_ifs <;> simp

theorem frameHeader_take (flag n : Nat) (t : List Nat) :
    (frameHeader flag n ++ t).take (headerLen n) = frameHeader flag n := by
  unfold frameHeader headerLen beBytes2 beBytes8
  split_ifs <;> simp

/-- Decoding a server-role frame: the parser finds the MASK bit clear, skips
the header of the right length class, and returns every remaining byte;
the buffer is not touched. -/
theorem parseFrameFull_server (m : List Nat) :
    parseFrameFull (frameHeader 0 m.length ++ m) =
      (m, frameHeader 0 m.length ++ m) := by
  by_cases h1 : m.length < 126
  · have h127 : m.length &&& 127 = m.length := (byteFacts _ (by omega)).1
    have h128 : m.length &&& 128 = 0 := (byteFacts _ (by omega)).2.1
    have e1 : (m.length == 126) = false := by simp; omega
    have e2 : (m.length == 127) = false := by simp; omega
    simp [parseFrameFull, frameHeader, h1, h127, h128, e1, e2]
  · by_cases h2 : m.length < 65536
    · have a1 : (126 : Nat) &&& 127 = 126 := by decide
      have a2 : (126 : Nat) &&& 128 = 0 := by decide
      simp [parseFrameFull, frameHeader, h1, h2, beBytes2, a1, a2]
    · have a1 : (127 : Nat) &&& 127 = 127 := by decide
      have a2 : (127 : Nat) &&& 128 = 0 := by decide
      simp [parseFrameFull, frameHeader, h1, h2, beBytes8, a1, a2]

/-- Decoding a client-role frame: the parser finds the MASK bit set, reads
the 4-byte key after the header, XOR-unmasks the rest, returns the original
payload — and leaves the caller's buffer rewritten with the unmasked
payload in place of the masked bytes. -/
theorem parseFrameFull_client (m mask : List Nat) (h4 : mask.length = 4)
    (hm : ∀ b ∈ mask, b < 256) (hp : ∀ b ∈ m, b < 256) :
    parseFrameFull (frameHeader 128 m.length ++ (mask ++ xorMask mask 0 m)) =
      (m, frameHeader 128 m.length ++ (mask ++ m)) := by
  have hinv := xorMask_involutive hm 0 m hp
  by_cases h1 : m.length < 126
  · have h127 : (128 ||| m.length) &&& 127 = m.length := (byteFacts _ (by omega)).2.2.1
    have h128 : (128 ||| m.length) &&& 128 = 128 := (byteFacts _ (by omega)).2.2.2
    have e1 : (m.length == 126) = false := by simp; omega
    have e2 : (m.length == 127) = false := by simp; omega
    simp [parseFrameFull, frameHeader, h1, h127, h128, e1, e2, hinv,
      List.take_left' (n := 4) h4, List.drop_left' (n := 4) h4]
  · by_cases h2 : m.length < 65536
    · have h127 : (254 : Nat) &&& 127 = 126 := by decide
      have h128 : (254 : Nat) &&& 128 = 128 := by decide
      simp [parseFrameFull, frameHeader, h1, h2, beBytes2, h127, h128, hinv,
        List.take_left' (n := 4) h4, List.drop_left' (n := 4) h4]
    · have h127 : (255 : Nat) &&& 127 = 127 := by decide
      have h128 : (255 : Nat) &&& 128 = 128 := by decide
      simp [parseFrameFull, frameHeader, h1, h2, beBytes8, h127, h128, hinv,
        List.take_left' (n := 4) h4, List.drop_left' (n := 4) h4]

/-! ### Claims about the frame codec -/

/-- C2: for every message `m` (as its UTF-8 bytes), decoding the frame
produced by encoding `m` with role server (`isClient = false`, no mask)
returns exactly `m`. -/
theorem c2_server_roundtrip (m : List Nat) :
    parseFrame (sendMessageFrame false [] m) = m := by
  show (parseFrameFull (frameHeader 0 m.length ++ m)).1 = m
  rw [parseFrameFull_server]

/-- C5: for every message `m` and every 4-byte masking key, decoding the
frame produced by encoding `m` with role client returns exactly `m` (XOR is
its own inverse), the frame's MASK bit (top bit of byte 1) is set, and the
chosen key is embedded verbatim right after the header — so frames built
from distinct random draws of the key differ, while the decoded outcome
never does. -/
theorem c5_client_roundtrip (m mask : List Nat) (h4 : mask.length = 4)
    (hm : ∀ b ∈ mask, b < 256) (hp : ∀ b ∈ m, b < 256) :
    parseFrame (sendMessageFrame true mask m) = m ∧
    (sendMessageFrame true mask m).getD 1 0 &&& 128 = 128 ∧
    ((sendMessageFrame true mask m).drop (headerLen m.length)).take 4 = mask := by
  have hind : (if m.length < 126 then m.length else if m.length < 65536 then 126 else 127) < 128 := by
    split_ifs <;> omega
  refine ⟨?_, ?_, ?_⟩
  · show (parseFrameFull (frameHeader 128 m.length ++ (mask ++ xorMask mask 0 m))).1 = m
    rw [parseFrameFull_client m mask h4 hm hp]
  · show (frameHeader 128 m.length ++ (mask ++ xorMask mask 0 m)).getD 1 0 &&& 128 = 128
    rw [frameHeader_getD1]
    exact (byteFacts _ hind).2.2.2
  · show ((frameHeader 128 m.length ++ (mask ++ xorMask mask 0 m)).drop (headerLen m.length)).take 4 = mask
    rw [frameHeader_drop]
    exact List.take_left' h4

/-- C6: a 125-byte message encodes with single-byte length field 125 and the
payload directly after the 2-byte header; a 126-byte message encodes with
indicator 126 and a 2-byte big-endian extended field equal to 126; a
65536-byte message encodes with indicator 127 and an 8-byte big-endian
extended field equal to 65536. -/
theorem c6_length_boundaries :
    (∀ m : List Nat, m.length = 125 →
      (sendMessage m).getD 1 0 = 125 ∧ (sendMessage m).length = 2 + 125 ∧
      (sendMessage m).drop 2 = m) ∧
    (∀ m : List Nat, m.length = 126 →
      (sendMessage m).getD 1 0 = 126 ∧
      256 * (sendMessage m).getD 2 0 + (sendMessage m).getD 3 0 = 126 ∧
      (sendMessage m).length = 4 + 126 ∧ (sendMessage m).drop 4 = m) ∧
    (∀ m : List Nat, m.length = 65536 →
      (sendMessage m).getD 1 0 = 127 ∧
      72057594037927936 * (sendMessage m).getD 2 0 +
        281474976710656 * (sendMessage m).getD 3 0 +
        1099511627776 * (sendMessage m).getD 4 0 +
        4294967296 * (sendMessage m).getD 5 0 +
        16777216 * (sendMessage m).getD 6 0 +
        65536 * (sendMessage m).getD 7 0 +
        256 * (sendMessage m).getD 8 0 + (sendMessage m).getD 9 0 = 65536 ∧
      (sendMessage m).length = 10 + 65536 ∧ (sendMessage m).drop 10 = m) := by
  refine ⟨?_, ?_, ?_⟩ <;> intro m h <;>
    simp [sendMessage, sendMessageFrame, frameHeader, beBytes2, beBytes8, h]

theorem c6_witness :
    (sendMessage (List.replicate 125 97)).getD 1 0 = 125 ∧
    (sendMessage (List.replicate 126 97)).getD 1 0 = 126 ∧
    (sendMessage (List.replicate 65536 97)).getD 1 0 = 127 :=
  ⟨(c6_length_boundaries.1 _ (by rw [List.length_replicate])).1,
   (c6_length_boundaries.2.1 _ (by rw [List.length_replicate])).1,
   (c6_length_boundaries.2.2 _ (by rw [List.length_replicate])).1⟩

/-- C9: the encoder's role is the hardcoded constant `isClient = false`
(src/server/index.js:129): every frame `sendMessage` produces agrees with the
server-role encoding with no mask key, its MASK bit is 0, its total length is
header length plus payload length (no 4-byte key present), and it carries the
payload verbatim after the header. -/
theorem c9_hardcoded_server_role (m : List Nat) :
    sendMessage m = sendMessageFrame false [] m ∧
    (sendMessage m).getD 1 0 &&& 128 = 0 ∧
    (sendMessage m).length = headerLen m.length + m.length ∧
    (sendMessage m).drop (headerLen m.length) = m := by
  have hind : (if m.length < 126 then m.length else if m.length < 65536 then 126 else 127) < 128 := by
    split_ifs <;> omega
  refine ⟨rfl, ?_, ?_, frameHeader_drop 0 m.length m⟩
  · show (frameHeader 0 m.length ++ m).getD 1 0 &&& 128 = 0
    rw [frameHeader_getD1]
    simpa using (byteFacts _ hind).2.1
  · show (frameHeader 0 m.length ++ m).length = headerLen m.length + m.length
    simp [frameHeader_length]

/-- C3 counterexample: the buffer `[0x81, 5, 104, 105]` declares a 5-byte
payload but carries only 2 bytes; `parseFrame` does not raise any
`TruncatedFrameError` — it returns `Except.ok` with the truncated text
"hi". -/
theorem c3_counterexample :
    decodeFrameE [129, 5, 104, 105] = Except.ok [104, 105] := by rfl

/-- C3 amended: the decoder performs no truncation check at all. For every
buffer that declares `n` payload bytes (single-byte length class) but holds
only `m` with fewer bytes, the decode succeeds with exactly the bytes
present, never an error. -/
theorem c3_no_truncation_check (n : Nat) (m : List Nat)
    (h1 : n < 126) (h2 : m.length < n) :
    decodeFrameE (129 :: n :: m) = Except.ok m := by
  have h127 : n &&& 127 = n := (byteFacts _ (by omega)).1
  have h128 : n &&& 128 = 0 := (byteFacts _ (by omega)).2.1
  have e1 : (n == 126) = false := by simp; omega
  have e2 : (n == 127) = false := by simp; omega
  simp [decodeFrameE, parseFrame, parseFrameFull, h127, h128, e1, e2]

theorem c3_witness : 7 < 126 ∧ ([65, 66] : List Nat).length < 7 ∧
    decodeFrameE [129, 7, 65, 66] = Except.ok [65, 66] :=
  ⟨by decide, by decide, c3_no_truncation_check 7 [65, 66] (by decide) (by decide)⟩

/-- C4 counterexample: `[0x81, 1, 65, 66]` contains one complete frame
(header `[0x81, 1]` plus its full 1-byte payload `[65]`) followed by one
trailing byte; the claim demands the payload `[65]` of that single frame,
but `parseFrame` returns every byte after the header, `[65, 66]`. -/
theorem c4_counterexample :
    parseFrame [129, 1, 65, 66] = [65, 66] ∧ parseFrame [129, 1, 65, 66] ≠ [65] := by
  refine ⟨by decide, by decide⟩

/-- Taking exactly the number of elements a drop leaves gives the whole
drop. -/
theorem take_drop_all {b : List Nat} {k n : Nat} (h : b.length = k + n) :
    (b.drop k).take n = b.drop k := by
  have h2 : (b.drop k).length = n := by rw [List.length_drop]; omega
  rw [← h2, List.take_length]

/-- C4 amended: for every buffer holding exactly one complete frame (header
plus exactly the declared number of payload bytes and nothing more), the
decoder returns the unmasked payload of exactly the declared length —
agreeing with the spec's take-computed-length decode. -/
theorem c4_exact_frame_decode (b : List Nat) (h : exactFrame b) :
    parseFrame b = decodeFrameSpec b ∧ (parseFrame b).length = declaredLen b := by
  unfold exactFrame payloadStartOf declaredLen indicatorOf maskedOf at h
  unfold parseFrame parseFrameFull decodeFrameSpec payloadStartOf declaredLen indicatorOf maskedOf
  cases e1 : (b.getD 1 0 &&& 127 == 126) with
  | true =>
      cases e2 : (b.getD 1 0 &&& 128 == 128) with
      | true =>
          simp only [e1, e2] at h ⊢
          simp at h ⊢
          have hd : (List.drop 8 b).length = 256 * b[2]?.getD 0 + b[3]?.getD 0 := by
            rw [List.length_drop]; omega
          rw [← hd, List.take_length]
          exact ⟨rfl, xorMask_length _ _ _⟩
      | false =>
          simp only [e1, e2] at h ⊢
          simp at h ⊢
          omega
  | false =>
      cases e3 : (b.getD 1 0 &&& 127 == 127) with
      | true =>
          cases e2 : (b.getD 1 0 &&& 128 == 128) with
          | true =>
              simp only [e1, e3, e2] at h ⊢
              simp at h ⊢
              have hd : (List.drop 14 b).length =
                  72057594037927936 * b[2]?.getD 0 + 281474976710656 * b[3]?.getD 0 +
                  1099511627776 * b[4]?.getD 0 + 4294967296 * b[5]?.getD 0 +
                  16777216 * b[6]?.getD 0 + 65536 * b[7]?.getD 0 +
                  256 * b[8]?.getD 0 + b[9]?.getD 0 := by
                rw [List.length_drop]; omega
              rw [← hd, List.take_length]
              exact ⟨rfl, xorMask_length _ _ _⟩
          | false =>
              simp only [e1, e3, e2] at h ⊢
              simp at h ⊢
              omega
      | false =>
          cases e2 : (b.getD 1 0 &&& 128 == 128) with
          | true =>
              simp only [e1, e3, e2] at h ⊢
              simp at h ⊢
              have hd : (List.drop 6 b).length = b[1]?.getD 0 &&& 127 := by
                rw [List.length_drop]; omega
              rw [← hd, List.take_length]
              exact ⟨rfl, xorMask_length _ _ _⟩
          | false =>
              simp only [e1, e3, e2] at h ⊢
              simp at h ⊢
              omega

theorem c4_witness : exactFrame [129, 3, 104, 101, 121] ∧
    parseFrame [129, 3, 104, 101, 121] = decodeFrameSpec [129, 3, 104, 101, 121] ∧
    (parseFrame [129, 3, 104, 101, 121]).length = declaredLen [129, 3, 104, 101, 121] :=
  ⟨by decide, c4_exact_frame_decode [129, 3, 104, 101, 121] (by decide)⟩

/-- C10: decoding a masked frame mutates the caller's buffer:
`buffer.slice` aliases the caller's memory, so after the call the payload
region of the buffer holds the XOR-unmasked plaintext (exactly the decoded
message), while every byte before the payload region is unchanged. -/
theorem c10_decode_mutates_buffer (m mask : List Nat) (h4 : mask.length = 4)
    (hm : ∀ b ∈ mask, b < 256) (hp : ∀ b ∈ m, b < 256) :
    (parseFrameFull (sendMessageFrame true mask m)).2 =
      (sendMessageFrame true mask m).take (headerLen m.length + 4) ++ m ∧
    (parseFrameFull (sendMessageFrame true mask m)).2.take (headerLen m.length + 4) =
      (sendMessageFrame true mask m).take (headerLen m.length + 4) := by
  have hlen : (frameHeader 128 m.length ++ mask).length = headerLen m.length + 4 := by
    simp [frameHeader_length, h4]
  have hpre : (sendMessageFrame true mask m).take (headerLen m.length + 4) =
      frameHeader 128 m.length ++ mask := by
    show ((frameHeader 128 m.length ++ (mask ++ xorMask mask 0 m)).take (headerLen m.length + 4)) = _
    rw [← List.append_assoc, List.take_left' hlen]
  have hpost : (parseFrameFull (sendMessageFrame true mask m)).2 =
      frameHeader 128 m.length ++ (mask ++ m) := by
    show (parseFrameFull (frameHeader 128 m.length ++ (mask ++ xorMask mask 0 m))).2 = _
    rw [parseFrameFull_client m mask h4 hm hp]
  refine ⟨?_, ?_⟩
  · rw [hpost, hpre, List.append_assoc]
  · rw [hpost, hpre, ← List.append_assoc, List.take_left' hlen]

theorem c10_witness :
    (parseFrameFull (sendMessageFrame true [7, 1, 255, 2] [104, 105])).2 =
      (sendMessageFrame true [7, 1, 255, 2] [104, 105]).take (headerLen 2 + 4) ++ [104, 105] ∧
    (parseFrameFull (sendMessageFrame true [7, 1, 255, 2] [104, 105])).2.take (headerLen 2 + 4) =
      (sendMessageFrame true [7, 1, 255, 2] [104, 105]).take (headerLen 2 + 4) :=
  c10_decode_mutates_buffer [104, 105] [7, 1, 255, 2] (by decide) (by decide) (by decide)

theorem c5_witness :
    parseFrame (sendMessageFrame true [7, 1, 255, 2] [3, 200]) = [3, 200] ∧
    (sendMessageFrame true [7, 1, 255, 2] [3, 200]).getD 1 0 &&& 128 = 128 ∧
    ((sendMessageFrame true [7, 1, 255, 2] [3, 200]).drop (headerLen 2)).take 4 = [7, 1, 255, 2] :=
  c5_client_roundtrip [3, 200] [7, 1, 255, 2] (by decide) (by decide) (by decide)

/-! ### Claims about the handshake deriver -/

/-- Whatever the message, the SHA-1 digest is the four big-endian bytes of
each of the five final 32-bit state words: 20 bytes, each reduced mod 256. -/
theorem sha1_shape (msg : List Nat) : ∃ a b c d e, sha1 msg =
    wordBytes a ++ (wordBytes b ++ (wordBytes c ++ (wordBytes d ++ wordBytes e))) :=
  ⟨_, _, _, _, _, rfl⟩

/-- Every 6-bit group maps to a character of the base64 alphabet. -/
theorem b64Char_valid : ∀ i, i < 64 → isB64Char (b64Char i) = true := by decide

/-- C1: `generateAcceptKey` equals the spec's `deriveAcceptToken` (base64 of
the SHA-1 digest of the UTF-8 bytes of the key concatenated with the magic
GUID); being a pure function it is deterministic, and its output is always
a valid base64 string of exactly 28 characters. -/
theorem c1_accept_token (k : String) :
    generateAcceptKey k = deriveAcceptToken k ∧
    (generateAcceptKey k).length = 28 ∧
    isValidB64 (generateAcceptKey k) = true := by
  refine ⟨rfl, ?_⟩
  obtain ⟨a, b, c, d, e, hs⟩ := sha1_shape (utf8Bytes (k ++ magicGUID))
  unfold generateAcceptKey isValidB64
  rw [hs]
  unfold wordBytes
  constructor
  · simp [String.length, base64Encode]
  · simp only [String.data, base64Encode, List.cons_append, List.nil_append,
      List.all_cons, List.all_nil, Bool.and_eq_true]
    repeat' constructor
    all_goals exact b64Char_valid _ (by omega)

set_option maxRecDepth 1000000 in
/-- C7: the canonical RFC 6455 example vector: the accept token derived from
the key "dGhlIHNhbXBsZSBub25jZQ==" is exactly "s3pPLMBiTxaQ9kYGzzhZRbK+xOo=". -/
theorem c7_rfc_vector :
    generateAcceptKey "dGhlIHNhbXBsZSBub25jZQ==" = "s3pPLMBiTxaQ9kYGzzhZRbK+xOo=" := by
  decide

/-- C8 counterexample: with the handshake key header absent (`none`), the
upgrade handler does not fail with `MalformedHeaderError`; it returns a
normal accept token, derived from the string "undefined". -/
theorem c8_counterexample :
    upgradeAccept none = Except.ok (generateAcceptKey "undefined") ∧
    upgradeAccept none ≠ Except.error HandshakeError.malformedHeader :=
  ⟨rfl, fun hcontra => Except.noConfusion hcontra⟩

set_option maxRecDepth 1000000 in
/-- C8 amended: when the key header is missing, the code silently coerces the
absent value to the string "undefined" and derives the accept token from it
(concretely, the token "gH2cR3x4MfGXKljgIwL3fMYv0sY="); no error is ever
produced. -/
theorem c8_missing_key_silently_derives :
    (∀ key : Option String, upgradeAccept key =
      Except.ok (generateAcceptKey (key.getD "undefined"))) ∧
    upgradeAccept none = Except.ok "gH2cR3x4MfGXKljgIwL3fMYv0sY=" := by
  constructor
  · intro key
    cases key <;> rfl
  · show Except.ok (generateAcceptKey "undefined") = _
    exact congrArg Except.ok (by decide)
